import Mathlib

/-!
# Windows redirector of aad-pod-identity: endpoint policies and the Sync loop

A shallow embedding of `pkg/nmi/server/endpointPolicy_windows.go` and
`pkg/nmi/server/redirector_windows.go`.

* Go `error` values are `Option Error` (`none` is `nil`).
* `[]byte` / `json.RawMessage` values are `Bytes`.
* Everything the package reaches but does not define (`encoding/json`, the
  host network agent `InvokeHNSRequest`, the pod client `ListPods`) is a field
  of `Externals`; every function takes it as its first argument.
* Effects are recorded in a log of `Event`s that is threaded through every
  function.  The agent and the pod client answer as a function of the log so
  far, which lets the same request be answered differently at different times.
* A Go run-time panic is the `panicked` outcome, `os.Exit` the `exited` control
  state.
-/

namespace AadPodIdentity

/-- Raw bytes: `[]byte` and `json.RawMessage`. -/
abbrev Bytes := String

/-- A non-nil Go `error`, kept as its message. -/
abbrev Error := String

/-- The fields of `v1.ProxyPolicy` that the package reads or writes. -/
structure ProxyPolicy where
  PolicyType : String
  IP : String
  Port : String
  Destination : String
deriving DecidableEq, Repr

/-- The zero value of `v1.ProxyPolicy` (`var proxyPolicy v1.ProxyPolicy`). -/
def ProxyPolicy.zero : ProxyPolicy :=
  { PolicyType := "", IP := "", Port := "", Destination := "" }

/-- The constant `v1.Proxy`. -/
def Proxy : String := "PROXY"

/-- The fields of `v1.HNSEndpoint` that the package reads or writes;
`IPAddress` is the text `IPAddress.String()` yields. -/
structure HNSEndpoint where
  Id : String
  IPAddress : String
  Policies : List Bytes
deriving DecidableEq, Repr

/-- Modelled from the spec: the entity kinds of the host network agent
protocol, declared outside the given sources; only the endpoint entity is
used. -/
inductive EntityType where
  | EndpointV1
deriving DecidableEq, Repr

/-- Modelled from the spec: the operations of the host network agent
protocol, declared outside the given sources. -/
inductive OperationType where
  | Enumerate
  | Modify
deriving DecidableEq, Repr

/-- Modelled from the spec: the request of the host network agent protocol,
declared outside the given sources: entity kind, operation, payload. -/
structure HNSRequest where
  Entity : EntityType
  Operation : OperationType
  Request : Option Bytes
deriving DecidableEq, Repr

/-- Modelled from the spec: the response of the host network agent protocol,
declared outside the given sources: payload bytes and error. -/
structure HNSResponse where
  Response : Bytes
  Error : Option Error
deriving DecidableEq, Repr

/-- The two counters `uploadIPRoutePolicyMetrics` reports. -/
inductive Counter where
  | NMIHostPolicyApplyFailedCountM
  | NMIHostPolicyApplyCountM
deriving DecidableEq, Repr

/-- What the log records, in program order: the entry of
`ApplyEndpointRoutePolicy` and of `DeleteEndpointRoutePolicy` with their
arguments, `InvokeHNSRequest(req)`,
`server.Reporter.ReportIPRoutePolicyOperation(podIP, nodeName, counter)`,
`server.PodClient.ListPods()`, `close(subRoutineDone)` and
`time.Sleep(seconds * time.Second)`. -/
inductive Event where
  | applyCall (podIP metadataIP metadataPort nmiIP nmiPort : String)
  | deleteCall (podIP metadataIP : String)
  | hnsRequest (req : HNSRequest)
  | report (podIP nodeName : String) (counter : Counter)
  | listPods
  | closeSubRoutineDone
  | sleep (seconds : Nat)
deriving DecidableEq, Repr

/-- The fields of `v1.Pod` that the package reads: `UID`, `Name`,
`Spec.NodeName`, `Status.PodIP`, `Status.HostIP`. -/
structure Pod where
  UID : String
  Name : String
  NodeName : String
  PodIP : String
  HostIP : String
deriving DecidableEq, Repr

/-- What the package calls but does not define:
* `marshalPolicy pp` is `json.Marshal(pp)` for a `*v1.ProxyPolicy`;
* `unmarshalPolicy p proxyPolicy` is `json.Unmarshal(p, &proxyPolicy)`: the
  variable after the call (the decoder writes into the value it is given) and
  the error;
* `marshalEndpoint endpoint` is `json.Marshal(endpoint)` for a `*v1.HNSEndpoint`;
* `unmarshalEndpoints response` is `json.Unmarshal(response, &endpoints)` for a
  `[]v1.HNSEndpoint`;
* `InvokeHNSRequest log req` is `InvokeHNSRequest(req)`, given the log so far;
* `ListPods log` is `server.PodClient.ListPods()`, given the log so far. -/
structure Externals where
  marshalPolicy : ProxyPolicy → Except Error Bytes
  unmarshalPolicy : Bytes → ProxyPolicy → ProxyPolicy × Option Error
  marshalEndpoint : HNSEndpoint → Except Error Bytes
  unmarshalEndpoints : Bytes → Except Error (List HNSEndpoint)
  InvokeHNSRequest : List Event → HNSRequest → HNSResponse
  ListPods : List Event → List Pod × Option Error

/-- How a call that may panic ends. -/
inductive Outcome (α : Type) where
  | returned (a : α)
  | panicked (msg : String)
deriving DecidableEq, Repr

/-- Go `s[:high]` on a slice whose capacity is its length. -/
def sliceTo {α : Type} (s : List α) (high : Nat) : Option (List α) :=
  if high ≤ s.length then some (s.take high) else none

/-- Go `s[low:]`: the upper bound defaults to `len(s)`, so `low ≤ len(s)` is
required. -/
def sliceFrom {α : Type} (s : List α) (low : Nat) : Option (List α) :=
  if low ≤ s.length then some (s.drop low) else none

/-- The function `callHcnProxyAgent`. -/
def callHcnProxyAgent (X : Externals) (req : HNSRequest) (log : List Event) :
    Except Error Bytes × List Event :=
  let res := X.InvokeHNSRequest log req
  let log1 := log ++ [Event.hnsRequest req]
  match res.Error with
  | some e => (Except.error e, log1)
  | none => (Except.ok res.Response, log1)

/-- The `for _, j := range endpoints` loop of `getEndpointByIP`. -/
def findEndpointByIP (ip : String) : List HNSEndpoint → Option HNSEndpoint
  | [] => none
  | j :: rest => if j.IPAddress = ip then some j else findEndpointByIP ip rest

/-- The function `getEndpointByIP`. -/
def getEndpointByIP (X : Externals) (ip : String) (log : List Event) :
    Except Error HNSEndpoint × List Event :=
  let request : HNSRequest :=
    { Entity := EntityType.EndpointV1, Operation := OperationType.Enumerate, Request := none }
  match callHcnProxyAgent X request log with
  | (Except.error e, log1) => (Except.error e, log1)
  | (Except.ok response, log1) =>
    match X.unmarshalEndpoints response with
    | Except.error err => (Except.error err, log1)
    | Except.ok endpoints =>
      match findEndpointByIP ip endpoints with
      | some j => (Except.ok j, log1)
      | none => (Except.error ("No endpoint found for IP address - " ++ ip), log1)

/-- The `for _, p := range endpoint.Policies` loop of `checkProxyPolicyExists`;
`proxyPolicy` is the variable every blob is decoded into. -/
def checkProxyPolicyExistsLoop (X : Externals) : List Bytes → ProxyPolicy → Bool
  | [], _ => false
  | p :: rest, proxyPolicy =>
    match X.unmarshalPolicy p proxyPolicy with
    | (_, some _) => true
    | (proxyPolicy1, none) => checkProxyPolicyExistsLoop X rest proxyPolicy1

/-- The function `checkProxyPolicyExists`. -/
def checkProxyPolicyExists (X : Externals) (endpoint : HNSEndpoint) : Bool :=
  checkProxyPolicyExistsLoop X endpoint.Policies ProxyPolicy.zero

/-- The function `addEndpointPolicy`: the endpoint as the call leaves it, the error
returned, and the log. -/
def addEndpointPolicy (X : Externals) (endpoint : HNSEndpoint)
    (metadataIP metadataPort nmiIP nmiPort : String) (log : List Event) :
    HNSEndpoint × Option Error × List Event :=
  if checkProxyPolicyExists X endpoint = true then
    (endpoint, none, log)
  else
    let pp : ProxyPolicy :=
      { PolicyType := Proxy, IP := metadataIP, Port := metadataPort,
        Destination := nmiIP ++ ":" ++ nmiPort }
    match X.marshalPolicy pp with
    | Except.error err => (endpoint, some err, log)
    | Except.ok jsonStr =>
      let err : Option Error := none
      let endpoint1 : HNSEndpoint := { endpoint with Policies := endpoint.Policies ++ [jsonStr] }
      match X.marshalEndpoint endpoint1 with
      | Except.error _ => (endpoint1, err, log)
      | Except.ok jsonStr1 =>
        let request : HNSRequest :=
          { Entity := EntityType.EndpointV1, Operation := OperationType.Modify,
            Request := some jsonStr1 }
        match callHcnProxyAgent X request log with
        | (Except.error er, log1) => (endpoint1, some er, log1)
        | (Except.ok _, log1) => (endpoint1, none, log1)

/-- The `for i, p := range endpoint.Policies` loop of `deleteEndpointPolicy`:
the value of `index` when the loop is left.  `i` is the position of the head
of the list, `proxyPolicy` the variable every blob is decoded into. -/
def deleteEndpointPolicyLoop (X : Externals) (metadataIP : String) :
    List Bytes → Nat → ProxyPolicy → Nat
  | [], _, _ => 0
  | p :: rest, i, proxyPolicy =>
    match X.unmarshalPolicy p proxyPolicy with
    | (proxyPolicy1, err) =>
      if err ≠ none ∧ proxyPolicy1.IP = metadataIP then i
      else deleteEndpointPolicyLoop X metadataIP rest (i + 1) proxyPolicy1

/-- The expression `append(endpoint.Policies[:index], endpoint.Policies[index+1:]...)`; `none`
when a slice expression is out of range. -/
def removeAt (policies : List Bytes) (index : Nat) : Option (List Bytes) :=
  match sliceTo policies index with
  | none => none
  | some front =>
    match sliceFrom policies (index + 1) with
    | none => none
    | some back => some (front ++ back)

/-- The function `deleteEndpointPolicy`: the endpoint as the call leaves it and the error
returned, or a panic; and the log. -/
def deleteEndpointPolicy (X : Externals) (endpoint : HNSEndpoint) (metadataIP : String)
    (log : List Event) : Outcome (HNSEndpoint × Option Error) × List Event :=
  let index := deleteEndpointPolicyLoop X metadataIP endpoint.Policies 0 ProxyPolicy.zero
  match removeAt endpoint.Policies index with
  | none => (Outcome.panicked "runtime error: slice bounds out of range", log)
  | some policies =>
    let endpoint1 : HNSEndpoint := { endpoint with Policies := policies }
    match X.marshalEndpoint endpoint1 with
    | Except.error e => (Outcome.returned (endpoint1, some e), log)
    | Except.ok jsonStr =>
      let request : HNSRequest :=
        { Entity := EntityType.EndpointV1, Operation := OperationType.Modify,
          Request := some jsonStr }
      match callHcnProxyAgent X request log with
      | (Except.error er, log1) => (Outcome.returned (endpoint1, some er), log1)
      | (Except.ok _, log1) => (Outcome.returned (endpoint1, none), log1)

/-- The function `ApplyEndpointRoutePolicy`.  After `getEndpointByIP` succeeds `err` is
`nil`, and `err` is what the `er != nil` branch returns. -/
def ApplyEndpointRoutePolicy (X : Externals)
    (podIP metadataIP metadataPort nmiIP nmiPort : String) (log : List Event) :
    Option Error × List Event :=
  let log0 := log ++ [Event.applyCall podIP metadataIP metadataPort nmiIP nmiPort]
  if podIP.length ≤ 0 then
    (some "Missing IP Address", log0)
  else
    match getEndpointByIP X podIP log0 with
    | (Except.error err, log1) => (some err, log1)
    | (Except.ok endpoint, log1) =>
      let err : Option Error := none
      match addEndpointPolicy X endpoint metadataIP metadataPort nmiIP nmiPort log1 with
      | (_, some _, log2) => (err, log2)
      | (_, none, log2) => (none, log2)

/-- The function `DeleteEndpointRoutePolicy`.  After `getEndpointByIP` succeeds `err` is
`nil`, and `err` is what the `er != nil` branch returns. -/
def DeleteEndpointRoutePolicy (X : Externals) (podIP metadataIP : String) (log : List Event) :
    Outcome (Option Error) × List Event :=
  let log0 := log ++ [Event.deleteCall podIP metadataIP]
  if podIP.length ≤ 0 then
    (Outcome.returned (some "Missing IP Address"), log0)
  else
    match getEndpointByIP X podIP log0 with
    | (Except.error err, log1) => (Outcome.returned (some err), log1)
    | (Except.ok endpoint, log1) =>
      let err : Option Error := none
      match deleteEndpointPolicy X endpoint metadataIP log1 with
      | (Outcome.panicked msg, log2) => (Outcome.panicked msg, log2)
      | (Outcome.returned (_, some _), log2) => (Outcome.returned err, log2)
      | (Outcome.returned (_, none), log2) => (Outcome.returned none, log2)

/-- The fields of `Server` that the package reads. -/
structure Server where
  NodeName : String
  HostIP : String
  MetadataIP : String
  MetadataPort : String
  NMIPort : String
deriving DecidableEq, Repr

/-- The Go type `map[types.UID]string` of `podMap`: what a lookup yields for every key. -/
abbrev PodMap := String → Option String

/-- The statement `podMap[uid] = podIP`. -/
def PodMap.insert (m : PodMap) (uid podIP : String) : PodMap :=
  fun k => if k = uid then some podIP else m k

/-- The statement `delete(podMap, uid)`. -/
def PodMap.delete (m : PodMap) (uid : String) : PodMap :=
  fun k => if k = uid then none else m k

/-- Where the process is: in the `for` loop of `Sync`, stopped by a panic, or
left through `os.Exit`. -/
inductive Control where
  | running
  | panicked (msg : String)
  | exited (code : Nat)
deriving DecidableEq, Repr

/-- The package variable `podMap`, the log, and where the process is. -/
structure State where
  podMap : PodMap
  log : List Event
  control : Control

/-- What the `select` of `Sync` receives: a signal on `signalChan`, the closing
of `mainRoutineDone`, or a pod on `server.PodObjChannel`. -/
inductive Selected where
  | signal
  | mainRoutineDone
  | podObj (pod : Pod)
deriving DecidableEq, Repr

/-- The function `uploadIPRoutePolicyMetrics`. -/
def uploadIPRoutePolicyMetrics (err : Option Error) (server : Server) (podIP : String)
    (log : List Event) : List Event :=
  let log1 :=
    match err with
    | some _ => log ++ [Event.report podIP server.NodeName Counter.NMIHostPolicyApplyFailedCountM]
    | none => log
  log1 ++ [Event.report podIP server.NodeName Counter.NMIHostPolicyApplyCountM]

/-- The `case pod = <-server.PodObjChannel` branch of `Sync`. -/
def syncPodObj (X : Externals) (server : Server) (pod : Pod) (st : State) : State :=
  if pod.PodIP ≠ "" ∧ server.NodeName = pod.NodeName ∧ server.HostIP ≠ pod.PodIP then
    match st.podMap pod.UID with
    | some podIP =>
      match DeleteEndpointRoutePolicy X podIP server.MetadataIP st.log with
      | (Outcome.panicked msg, log1) => { st with log := log1, control := Control.panicked msg }
      | (Outcome.returned err, log1) =>
        let log2 := uploadIPRoutePolicyMetrics err server podIP log1
        match err with
        | some _ => { st with log := log2 }
        | none => { st with podMap := st.podMap.delete pod.UID, log := log2 }
    | none =>
      match ApplyEndpointRoutePolicy X pod.PodIP server.MetadataIP server.MetadataPort
          server.HostIP server.NMIPort st.log with
      | (err, log1) =>
        let log2 := uploadIPRoutePolicyMetrics err server pod.PodIP log1
        match err with
        | some _ => { st with log := log2 }
        | none => { st with podMap := st.podMap.insert pod.UID pod.PodIP, log := log2 }
  else st

/-- The `for _, podItem := range listPods` loop of
`ApplyRoutePolicyForExistingPods`. -/
def applyExistingLoop (X : Externals) (server : Server) : List Pod → State → State
  | [], st => st
  | podItem :: rest, st =>
    if podItem.NodeName = server.NodeName ∧ podItem.PodIP ≠ "" ∧ podItem.PodIP ≠ server.HostIP then
      match ApplyEndpointRoutePolicy X podItem.PodIP server.MetadataIP server.MetadataPort
          server.HostIP server.NMIPort st.log with
      | (err, log1) =>
        let log2 := uploadIPRoutePolicyMetrics err server podItem.PodIP log1
        match err with
        | some _ => applyExistingLoop X server rest { st with log := log2 }
        | none =>
          applyExistingLoop X server rest
            { st with podMap := st.podMap.insert podItem.UID podItem.PodIP, log := log2 }
    else applyExistingLoop X server rest st

/-- The function `ApplyRoutePolicyForExistingPods`. -/
def ApplyRoutePolicyForExistingPods (X : Externals) (server : Server) (st : State) : State :=
  let listPods := (X.ListPods st.log).1
  applyExistingLoop X server listPods { st with log := st.log ++ [Event.listPods] }

/-- The `for _, podItem := range listPods` loop of
`DeleteRoutePolicyForExistingPods`; a panic inside a call ends it. -/
def deleteExistingLoop (X : Externals) (server : Server) : List Pod → State → State
  | [], st => st
  | podItem :: rest, st =>
    if podItem.NodeName = server.NodeName then
      match DeleteEndpointRoutePolicy X podItem.PodIP server.MetadataIP st.log with
      | (Outcome.panicked msg, log1) => { st with log := log1, control := Control.panicked msg }
      | (Outcome.returned err, log1) =>
        let log2 := uploadIPRoutePolicyMetrics err server podItem.PodIP log1
        match err with
        | some _ => deleteExistingLoop X server rest { st with log := log2 }
        | none =>
          deleteExistingLoop X server rest
            { st with podMap := st.podMap.delete podItem.UID, log := log2 }
    else deleteExistingLoop X server rest st

/-- The function `DeleteRoutePolicyForExistingPods`: it ends in `os.Exit(exitCode)`
unless a call panicked before. -/
def DeleteRoutePolicyForExistingPods (X : Externals) (server : Server) (st : State) : State :=
  let listing := X.ListPods st.log
  let listPods := listing.1
  let exitCode : Nat :=
    match listing.2 with
    | some _ => 1
    | none => 0
  let st1 := deleteExistingLoop X server listPods { st with log := st.log ++ [Event.listPods] }
  match st1.control with
  | Control.running =>
    { st1 with log := st1.log ++ [Event.sleep 10], control := Control.exited exitCode }
  | _ => st1

/-- The statement `close(subRoutineDone)` after a drain: reached only when the
drain returned. -/
def closeSubRoutineDone (st : State) : State :=
  match st.control with
  | Control.running => { st with log := st.log ++ [Event.closeSubRoutineDone] }
  | _ => st

/-- One turn of the `for { select { ... } }` loop of `Sync`. -/
def syncStep (X : Externals) (server : Server) (sel : Selected) (st : State) : State :=
  match sel with
  | Selected.signal => closeSubRoutineDone (DeleteRoutePolicyForExistingPods X server st)
  | Selected.mainRoutineDone => closeSubRoutineDone (DeleteRoutePolicyForExistingPods X server st)
  | Selected.podObj pod => syncPodObj X server pod st

/-- The `for` loop of `Sync` over what the `select` receives, in order; it
turns no more once the process has panicked or exited. -/
def syncLoop (X : Externals) (server : Server) : List Selected → State → State
  | [], st => st
  | sel :: rest, st =>
    match st.control with
    | Control.running => syncLoop X server rest (syncStep X server sel st)
    | _ => st

/-- The function `Sync`, started with an empty `podMap` and run over what the
`select` receives. -/
def Sync (X : Externals) (server : Server) (received : List Selected) : State :=
  syncLoop X server received
    (ApplyRoutePolicyForExistingPods X server
      { podMap := fun _ => none, log := [], control := Control.running })

/-- The calls of `ApplyEndpointRoutePolicy` and `DeleteEndpointRoutePolicy` in a log. -/
def policyCalls (log : List Event) : List Event :=
  log.filter fun e =>
    match e with
    | Event.applyCall _ _ _ _ _ => true
    | Event.deleteCall _ _ => true
    | _ => false

/-! ## A sample host, for concrete runs -/

/-- The policy `addEndpointPolicy` builds for metadata address
`169.254.169.254:80` and proxy address `10.240.0.4:2579`. -/
def samplePolicy : ProxyPolicy :=
  { PolicyType := Proxy, IP := "169.254.169.254", Port := "80", Destination := "10.240.0.4:2579" }

/-- The blob the sample encoder yields for `samplePolicy`. -/
def sampleProxyBlob : Bytes := "PROXY|169.254.169.254|80|10.240.0.4:2579"

/-- A sample encoder of proxy policies: the four fields, separated by bars. -/
def sampleMarshalPolicy (pp : ProxyPolicy) : Except Error Bytes :=
  Except.ok (pp.PolicyType ++ "|" ++ pp.IP ++ "|" ++ pp.Port ++ "|" ++ pp.Destination)

/-- A sample decoder that knows three blobs: `sampleProxyBlob` decodes to
`samplePolicy`; `"ACL"`, a policy of another kind, decodes without error and
sets only the type; every other blob fails to decode and leaves the variable
as it was. -/
def sampleUnmarshalPolicy (p : Bytes) (proxyPolicy : ProxyPolicy) : ProxyPolicy × Option Error :=
  if p = sampleProxyBlob then (samplePolicy, none)
  else if p = "ACL" then ({ proxyPolicy with PolicyType := "ACL" }, none)
  else (proxyPolicy, some "json: cannot unmarshal into Go value of type hcsshim.ProxyPolicy")

/-- A sample encoder of endpoints: the identifier and the blobs, separated by bars. -/
def sampleMarshalEndpoint (endpoint : HNSEndpoint) : Except Error Bytes :=
  Except.ok (endpoint.Policies.foldl (fun acc p => acc ++ "|" ++ p) endpoint.Id)

/-- A sample host: the agent knows `endpoints`, answers Enumerate with
`enumerateError` and Modify with `modifyError`; the pod client lists `pods`. -/
def sampleExternals (endpoints : List HNSEndpoint) (enumerateError modifyError : Option Error)
    (pods : List Pod × Option Error) : Externals :=
  { marshalPolicy := sampleMarshalPolicy
    unmarshalPolicy := sampleUnmarshalPolicy
    marshalEndpoint := sampleMarshalEndpoint
    unmarshalEndpoints := fun response =>
      if response = "endpoints" then Except.ok endpoints
      else Except.error "unexpected end of JSON input"
    InvokeHNSRequest := fun _ req =>
      match req.Operation with
      | OperationType.Enumerate => { Response := "endpoints", Error := enumerateError }
      | OperationType.Modify => { Response := "", Error := modifyError }
    ListPods := fun _ => pods }

/-- A sample node. -/
def sampleServer : Server :=
  { NodeName := "node-1", HostIP := "10.240.0.4", MetadataIP := "169.254.169.254",
    MetadataPort := "80", NMIPort := "2579" }

/-- A sample pod on `sampleServer`. -/
def samplePod : Pod :=
  { UID := "A", Name := "pod-a", NodeName := "node-1", PodIP := "10.0.0.5", HostIP := "10.240.0.4" }

/-- The endpoint of `samplePod`, carrying `policies`. -/
def sampleEndpoint (policies : List Bytes) : HNSEndpoint :=
  { Id := "ep-a", IPAddress := "10.0.0.5", Policies := policies }

/-- The state in which no pod is tracked and nothing has happened. -/
def emptyState : State :=
  { podMap := fun _ => none, log := [], control := Control.running }

/-- The state in which `samplePod` alone is tracked, with IP `10.0.0.5`. -/
def trackedState : State :=
  { podMap := PodMap.insert (fun _ => none) "A" "10.0.0.5", log := [],
    control := Control.running }

/-! ## The scans over the policy blobs -/

theorem checkProxyPolicyExistsLoop_eq_false (X : Externals) (policies : List Bytes)
    (hdec : ∀ p ∈ policies, ∀ cur, (X.unmarshalPolicy p cur).2 = none) (proxyPolicy : ProxyPolicy) :
    checkProxyPolicyExistsLoop X policies proxyPolicy = false := by
  induction policies generalizing proxyPolicy with
  | nil => rfl
  | cons p rest ih =>
    have hp := hdec p (List.mem_cons_self p rest) proxyPolicy
    have hrest : ∀ q ∈ rest, ∀ cur, (X.unmarshalPolicy q cur).2 = none :=
      fun q hq cur => hdec q (List.mem_cons_of_mem p hq) cur
    unfold checkProxyPolicyExistsLoop
    rcases hu : X.unmarshalPolicy p proxyPolicy with ⟨pp1, err⟩
    rw [hu] at hp
    simp only at hp
    subst hp
    exact ih hrest pp1

theorem checkProxyPolicyExistsLoop_eq_true (X : Externals) (policies : List Bytes)
    (hbad : ∃ p ∈ policies, ∀ cur, (X.unmarshalPolicy p cur).2 ≠ none) (proxyPolicy : ProxyPolicy) :
    checkProxyPolicyExistsLoop X policies proxyPolicy = true := by
  induction policies generalizing proxyPolicy with
  | nil =>
    rcases hbad with ⟨p, hp, _⟩
    cases hp
  | cons q rest ih =>
    unfold checkProxyPolicyExistsLoop
    rcases hu : X.unmarshalPolicy q proxyPolicy with ⟨pp1, err⟩
    cases err with
    | some e => rfl
    | none =>
      simp only
      apply ih
      rcases hbad with ⟨p, hp, hfail⟩
      rcases List.mem_cons.mp hp with hpq | hprest
      · subst hpq
        exact absurd (by rw [hu]) (hfail proxyPolicy)
      · exact ⟨p, hprest, hfail⟩

theorem deleteEndpointPolicyLoop_bound (X : Externals) (metadataIP : String)
    (policies : List Bytes) (i : Nat) (proxyPolicy : ProxyPolicy) :
    deleteEndpointPolicyLoop X metadataIP policies i proxyPolicy = 0 ∨
      deleteEndpointPolicyLoop X metadataIP policies i proxyPolicy < i + policies.length := by
  induction policies generalizing i proxyPolicy with
  | nil => left; rfl
  | cons p rest ih =>
    unfold deleteEndpointPolicyLoop
    rcases hu : X.unmarshalPolicy p proxyPolicy with ⟨pp1, err⟩
    simp only
    split
    · right
      simp only [List.length_cons]
      omega
    · rcases ih (i + 1) pp1 with h | h
      · left; exact h
      · right
        simp only [List.length_cons]
        omega

theorem deleteEndpointPolicyLoop_lt_length (X : Externals) (metadataIP : String)
    (policies : List Bytes) (hne : policies ≠ []) :
    deleteEndpointPolicyLoop X metadataIP policies 0 ProxyPolicy.zero < policies.length := by
  have hpos : 0 < policies.length := List.length_pos.mpr hne
  rcases deleteEndpointPolicyLoop_bound X metadataIP policies 0 ProxyPolicy.zero with h | h
  · omega
  · omega

theorem deleteEndpointPolicyLoop_eq_zero (X : Externals) (metadataIP : String)
    (policies : List Bytes)
    (hdec : ∀ p ∈ policies, ∀ cur, (X.unmarshalPolicy p cur).2 = none)
    (i : Nat) (proxyPolicy : ProxyPolicy) :
    deleteEndpointPolicyLoop X metadataIP policies i proxyPolicy = 0 := by
  induction policies generalizing i proxyPolicy with
  | nil => rfl
  | cons p rest ih =>
    have hp := hdec p (List.mem_cons_self p rest) proxyPolicy
    have hrest : ∀ q ∈ rest, ∀ cur, (X.unmarshalPolicy q cur).2 = none :=
      fun q hq cur => hdec q (List.mem_cons_of_mem p hq) cur
    unfold deleteEndpointPolicyLoop
    rcases hu : X.unmarshalPolicy p proxyPolicy with ⟨pp1, err⟩
    rw [hu] at hp
    simp only at hp
    subst hp
    simp only [ne_eq, not_true_eq_false, false_and, if_false]
    exact ih hrest (i + 1) pp1

theorem removeAt_of_lt (policies : List Bytes) (index : Nat) (hlt : index < policies.length) :
    removeAt policies index = some (policies.take index ++ policies.drop (index + 1)) := by
  unfold removeAt sliceTo sliceFrom
  have h1 : index ≤ policies.length := by omega
  have h2 : index + 1 ≤ policies.length := by omega
  simp only [h1, h2, if_true]

theorem removeAt_nil (index : Nat) : removeAt [] index = none := by
  unfold removeAt sliceTo sliceFrom
  cases index with
  | zero => simp
  | succ n => simp

theorem deleteEndpointPolicy_returns (X : Externals) (endpoint : HNSEndpoint)
    (metadataIP : String) (log : List Event) (policies : List Bytes)
    (hrem : removeAt endpoint.Policies
      (deleteEndpointPolicyLoop X metadataIP endpoint.Policies 0 ProxyPolicy.zero) = some policies) :
    ∃ er log1, deleteEndpointPolicy X endpoint metadataIP log =
      (Outcome.returned ({ endpoint with Policies := policies }, er), log1) := by
  unfold deleteEndpointPolicy
  simp only [hrem]
  cases hm : X.marshalEndpoint { endpoint with Policies := policies } with
  | error e => exact ⟨_, _, rfl⟩
  | ok jsonStr =>
    simp only
    rcases hc : callHcnProxyAgent X
      { Entity := EntityType.EndpointV1, Operation := OperationType.Modify,
        Request := some jsonStr } log with ⟨res, log1⟩
    cases res with
    | error er => exact ⟨_, _, rfl⟩
    | ok b => exact ⟨_, _, rfl⟩

theorem addEndpointPolicy_appends (X : Externals) (endpoint : HNSEndpoint)
    (metadataIP metadataPort nmiIP nmiPort : String) (log : List Event) (jsonStr : Bytes)
    (hm : X.marshalPolicy
      { PolicyType := Proxy, IP := metadataIP, Port := metadataPort,
        Destination := nmiIP ++ ":" ++ nmiPort } = Except.ok jsonStr)
    (hdec : ∀ p ∈ endpoint.Policies, ∀ cur, (X.unmarshalPolicy p cur).2 = none) :
    (addEndpointPolicy X endpoint metadataIP metadataPort nmiIP nmiPort log).1 =
      { endpoint with Policies := endpoint.Policies ++ [jsonStr] } := by
  have hc : checkProxyPolicyExists X endpoint = false :=
    checkProxyPolicyExistsLoop_eq_false X endpoint.Policies hdec ProxyPolicy.zero
  unfold addEndpointPolicy
  simp only [hc, Bool.false_eq_true, if_false, hm]
  cases hme : X.marshalEndpoint { endpoint with Policies := endpoint.Policies ++ [jsonStr] } with
  | error e => rfl
  | ok jsonStr1 =>
    simp only
    rcases hcall : callHcnProxyAgent X
      { Entity := EntityType.EndpointV1, Operation := OperationType.Modify,
        Request := some jsonStr1 } log with ⟨res, log1⟩
    cases res with
    | error er => rfl
    | ok b => rfl

/-! ## The claims about the endpoint policies -/

/-- Claim C1, as the code has it: when the blob that `addEndpointPolicy` builds
decodes without error, as every blob of the endpoint does, the first
application appends the blob and the second application, with the same
arguments on the endpoint the first one left, appends it once more: the policy
sequence grows from `n + 1` to `n + 2` entries, it is not left unchanged. -/
theorem addEndpointPolicy_twice_appends_twice (X : Externals) (endpoint : HNSEndpoint)
    (metadataIP metadataPort nmiIP nmiPort : String) (log : List Event) (jsonStr : Bytes)
    (hm : X.marshalPolicy
      { PolicyType := Proxy, IP := metadataIP, Port := metadataPort,
        Destination := nmiIP ++ ":" ++ nmiPort } = Except.ok jsonStr)
    (hdec : ∀ p ∈ endpoint.Policies ++ [jsonStr], ∀ cur, (X.unmarshalPolicy p cur).2 = none) :
    (addEndpointPolicy X endpoint metadataIP metadataPort nmiIP nmiPort log).1.Policies =
        endpoint.Policies ++ [jsonStr] ∧
      (addEndpointPolicy X
          (addEndpointPolicy X endpoint metadataIP metadataPort nmiIP nmiPort log).1
          metadataIP metadataPort nmiIP nmiPort
          (addEndpointPolicy X endpoint metadataIP metadataPort nmiIP nmiPort log).2.2).1.Policies =
        endpoint.Policies ++ [jsonStr, jsonStr] := by
  have hdec0 : ∀ p ∈ endpoint.Policies, ∀ cur, (X.unmarshalPolicy p cur).2 = none :=
    fun p hp cur => hdec p (List.mem_append_left _ hp) cur
  have h1 := addEndpointPolicy_appends X endpoint metadataIP metadataPort nmiIP nmiPort log
    jsonStr hm hdec0
  have h2 := addEndpointPolicy_appends X
    { endpoint with Policies := endpoint.Policies ++ [jsonStr] }
    metadataIP metadataPort nmiIP nmiPort
    (addEndpointPolicy X endpoint metadataIP metadataPort nmiIP nmiPort log).2.2 jsonStr hm hdec
  rw [h1]
  refine ⟨rfl, ?_⟩
  rw [h2]
  simp

/-- A run of C1 on the sample host: an endpoint without policies has one policy
after the first application and two after the second. -/
theorem addEndpointPolicy_twice_appends_twice_witness :
    (sampleExternals [] none none ([], none)).marshalPolicy
        { PolicyType := Proxy, IP := "169.254.169.254", Port := "80",
          Destination := "10.240.0.4" ++ ":" ++ "2579" } = Except.ok sampleProxyBlob ∧
      (∀ p ∈ (sampleEndpoint []).Policies ++ [sampleProxyBlob], ∀ cur,
        ((sampleExternals [] none none ([], none)).unmarshalPolicy p cur).2 = none) ∧
      (addEndpointPolicy (sampleExternals [] none none ([], none)) (sampleEndpoint [])
          "169.254.169.254" "80" "10.240.0.4" "2579" []).1.Policies =
        (sampleEndpoint []).Policies ++ [sampleProxyBlob] ∧
      (addEndpointPolicy (sampleExternals [] none none ([], none))
          (addEndpointPolicy (sampleExternals [] none none ([], none)) (sampleEndpoint [])
            "169.254.169.254" "80" "10.240.0.4" "2579" []).1
          "169.254.169.254" "80" "10.240.0.4" "2579"
          (addEndpointPolicy (sampleExternals [] none none ([], none)) (sampleEndpoint [])
            "169.254.169.254" "80" "10.240.0.4" "2579" []).2.2).1.Policies =
        (sampleEndpoint []).Policies ++ [sampleProxyBlob, sampleProxyBlob] :=
  have hm : (sampleExternals [] none none ([], none)).marshalPolicy
      { PolicyType := Proxy, IP := "169.254.169.254", Port := "80",
        Destination := "10.240.0.4" ++ ":" ++ "2579" } = Except.ok sampleProxyBlob := rfl
  have hdec : ∀ p ∈ (sampleEndpoint []).Policies ++ [sampleProxyBlob], ∀ cur,
      ((sampleExternals [] none none ([], none)).unmarshalPolicy p cur).2 = none := by
    intro p hp cur
    simp only [sampleEndpoint, List.nil_append, List.mem_singleton] at hp
    subst hp
    simp [sampleExternals, sampleUnmarshalPolicy]
  ⟨hm, hdec,
    addEndpointPolicy_twice_appends_twice (sampleExternals [] none none ([], none))
      (sampleEndpoint []) "169.254.169.254" "80" "10.240.0.4" "2579" [] sampleProxyBlob hm hdec⟩

/-- Claim C2, as the code has it: when the endpoint carries a blob that does
not decode as a proxy policy, `addEndpointPolicy` takes the endpoint to have a
proxy policy already: it returns `nil`, leaves the endpoint as it is and sends
no request to the agent, so no Modify request with the appended blob is
submitted. -/
theorem addEndpointPolicy_skips_on_undecodable_blob (X : Externals) (endpoint : HNSEndpoint)
    (metadataIP metadataPort nmiIP nmiPort : String) (log : List Event)
    (hbad : ∃ p ∈ endpoint.Policies, ∀ cur, (X.unmarshalPolicy p cur).2 ≠ none) :
    addEndpointPolicy X endpoint metadataIP metadataPort nmiIP nmiPort log =
      (endpoint, none, log) := by
  have hc : checkProxyPolicyExists X endpoint = true :=
    checkProxyPolicyExistsLoop_eq_true X endpoint.Policies hbad ProxyPolicy.zero
  unfold addEndpointPolicy
  simp only [hc, if_true]

/-- A run of C2 on the sample host: the endpoint carries one blob of a kind the
decoder does not understand and no policy for the listen IP; nothing is
submitted. -/
theorem addEndpointPolicy_skips_on_undecodable_blob_witness :
    (∃ p ∈ (sampleEndpoint ["not a proxy policy"]).Policies, ∀ cur,
        ((sampleExternals [] none none ([], none)).unmarshalPolicy p cur).2 ≠ none) ∧
      addEndpointPolicy (sampleExternals [] none none ([], none))
          (sampleEndpoint ["not a proxy policy"]) "169.254.169.254" "80" "10.240.0.4" "2579" [] =
        (sampleEndpoint ["not a proxy policy"], none, []) :=
  have hbad : ∃ p ∈ (sampleEndpoint ["not a proxy policy"]).Policies, ∀ cur,
      ((sampleExternals [] none none ([], none)).unmarshalPolicy p cur).2 ≠ none :=
    ⟨"not a proxy policy", by simp [sampleEndpoint], fun cur => by
      simp [sampleExternals, sampleUnmarshalPolicy, sampleProxyBlob]⟩
  ⟨hbad,
    addEndpointPolicy_skips_on_undecodable_blob (sampleExternals [] none none ([], none))
      (sampleEndpoint ["not a proxy policy"]) "169.254.169.254" "80" "10.240.0.4" "2579" [] hbad⟩

/-- Claim C3, as the code has it: when every blob of the endpoint decodes
without error, `deleteEndpointPolicy` removes the first blob of the sequence,
whatever the listen addresses are, and submits the rest: a policy for the
listen IP that is not first stays, and when no policy has the listen address
the sequence still loses its first entry. -/
theorem deleteEndpointPolicy_removes_first_blob (X : Externals) (endpoint : HNSEndpoint)
    (metadataIP : String) (log : List Event) (p : Bytes) (rest : List Bytes) (jsonStr : Bytes)
    (hdec : ∀ q ∈ endpoint.Policies, ∀ cur, (X.unmarshalPolicy q cur).2 = none)
    (hpol : endpoint.Policies = p :: rest)
    (hm : X.marshalEndpoint { endpoint with Policies := rest } = Except.ok jsonStr) :
    (deleteEndpointPolicy X endpoint metadataIP log).1 =
        Outcome.returned ({ endpoint with Policies := rest },
          (X.InvokeHNSRequest log
            { Entity := EntityType.EndpointV1, Operation := OperationType.Modify,
              Request := some jsonStr }).Error) ∧
      (deleteEndpointPolicy X endpoint metadataIP log).2 =
        log ++ [Event.hnsRequest
          { Entity := EntityType.EndpointV1, Operation := OperationType.Modify,
            Request := some jsonStr }] := by
  have hidx := deleteEndpointPolicyLoop_eq_zero X metadataIP endpoint.Policies hdec 0
    ProxyPolicy.zero
  have hrem : removeAt endpoint.Policies 0 = some rest := by
    rw [hpol]
    simp [removeAt, sliceTo, sliceFrom]
  unfold deleteEndpointPolicy
  simp only [hidx, hrem, hm, callHcnProxyAgent]
  cases hres : (X.InvokeHNSRequest log
    { Entity := EntityType.EndpointV1, Operation := OperationType.Modify,
      Request := some jsonStr }).Error with
  | none => exact ⟨rfl, rfl⟩
  | some er => exact ⟨rfl, rfl⟩

/-- A run of C3 on the sample host: of the two policies, the second is the one
whose listen address is the listen IP; the first is removed and the second is
submitted. -/
theorem deleteEndpointPolicy_removes_first_blob_witness :
    (∀ q ∈ (sampleEndpoint ["ACL", sampleProxyBlob]).Policies, ∀ cur,
        ((sampleExternals [] none none ([], none)).unmarshalPolicy q cur).2 = none) ∧
      ((sampleExternals [] none none ([], none)).unmarshalPolicy sampleProxyBlob
        ProxyPolicy.zero).1.IP = "169.254.169.254" ∧
      (deleteEndpointPolicy (sampleExternals [] none none ([], none))
          (sampleEndpoint ["ACL", sampleProxyBlob]) "169.254.169.254" []).1 =
        Outcome.returned (sampleEndpoint [sampleProxyBlob], none) ∧
      (deleteEndpointPolicy (sampleExternals [] none none ([], none))
          (sampleEndpoint ["ACL", sampleProxyBlob]) "169.254.169.254" []).2 =
        [Event.hnsRequest
          { Entity := EntityType.EndpointV1, Operation := OperationType.Modify,
            Request := some "ep-a|PROXY|169.254.169.254|80|10.240.0.4:2579" }] :=
  have hdec : ∀ q ∈ (sampleEndpoint ["ACL", sampleProxyBlob]).Policies, ∀ cur,
      ((sampleExternals [] none none ([], none)).unmarshalPolicy q cur).2 = none := by
    intro q hq cur
    simp only [sampleEndpoint, List.mem_cons, List.mem_singleton, List.not_mem_nil,
      or_false] at hq
    rcases hq with h | h
    · subst h
      simp [sampleExternals, sampleUnmarshalPolicy, sampleProxyBlob]
    · subst h
      simp [sampleExternals, sampleUnmarshalPolicy]
  ⟨hdec, rfl,
    deleteEndpointPolicy_removes_first_blob (sampleExternals [] none none ([], none))
      (sampleEndpoint ["ACL", sampleProxyBlob]) "169.254.169.254" [] "ACL" [sampleProxyBlob]
      "ep-a|PROXY|169.254.169.254|80|10.240.0.4:2579" hdec rfl rfl⟩

/-- Claim C4, as the code has it: once the pod IP resolves to an endpoint,
`ApplyEndpointRoutePolicy` returns `nil` and `DeleteEndpointRoutePolicy` never
returns an error, whatever the agent answers to the Modify request: the error
of `addEndpointPolicy` or `deleteEndpointPolicy` is dropped. -/
theorem routePolicy_drops_modify_error (X : Externals)
    (podIP metadataIP metadataPort nmiIP nmiPort : String) (log : List Event)
    (endpointA endpointD : HNSEndpoint) (logA logD : List Event)
    (hip : 0 < podIP.length)
    (hA : getEndpointByIP X podIP
      (log ++ [Event.applyCall podIP metadataIP metadataPort nmiIP nmiPort]) =
        (Except.ok endpointA, logA))
    (hD : getEndpointByIP X podIP (log ++ [Event.deleteCall podIP metadataIP]) =
      (Except.ok endpointD, logD)) :
    (ApplyEndpointRoutePolicy X podIP metadataIP metadataPort nmiIP nmiPort log).1 = none ∧
      ∀ e, (DeleteEndpointRoutePolicy X podIP metadataIP log).1 ≠ Outcome.returned (some e) := by
  have hlen : ¬ podIP.length ≤ 0 := by omega
  constructor
  · unfold ApplyEndpointRoutePolicy
    simp only [hlen, if_false, hA]
    rcases addEndpointPolicy X endpointA metadataIP metadataPort nmiIP nmiPort logA with
      ⟨ep1, er, log2⟩
    cases er with
    | none => rfl
    | some e => rfl
  · intro e
    unfold DeleteEndpointRoutePolicy
    simp only [hlen, if_false, hD]
    rcases deleteEndpointPolicy X endpointD metadataIP logD with ⟨out, log2⟩
    cases out with
    | panicked msg => simp
    | returned r =>
      rcases r with ⟨ep1, er⟩
      cases er with
      | none => simp
      | some e1 => simp

/-- A run of C4 on the sample host, whose agent answers Enumerate and fails
every Modify request: `addEndpointPolicy` and `deleteEndpointPolicy` return the
agent's error, `ApplyEndpointRoutePolicy` and `DeleteEndpointRoutePolicy`
return `nil`. -/
theorem routePolicy_drops_modify_error_witness :
    0 < ("10.0.0.5" : String).length ∧
      (addEndpointPolicy
          (sampleExternals [sampleEndpoint ["ACL"]] none (some "modify failed") ([], none))
          (sampleEndpoint ["ACL"]) "169.254.169.254" "80" "10.240.0.4" "2579" []).2.1 =
        some "modify failed" ∧
      (deleteEndpointPolicy
          (sampleExternals [sampleEndpoint ["ACL"]] none (some "modify failed") ([], none))
          (sampleEndpoint ["ACL"]) "169.254.169.254" []).1 =
        Outcome.returned (sampleEndpoint [], some "modify failed") ∧
      (ApplyEndpointRoutePolicy
          (sampleExternals [sampleEndpoint ["ACL"]] none (some "modify failed") ([], none))
          "10.0.0.5" "169.254.169.254" "80" "10.240.0.4" "2579" []).1 = none ∧
      ∀ e, (DeleteEndpointRoutePolicy
          (sampleExternals [sampleEndpoint ["ACL"]] none (some "modify failed") ([], none))
          "10.0.0.5" "169.254.169.254" []).1 ≠ Outcome.returned (some e) :=
  ⟨by decide, rfl, rfl,
    routePolicy_drops_modify_error
      (sampleExternals [sampleEndpoint ["ACL"]] none (some "modify failed") ([], none))
      "10.0.0.5" "169.254.169.254" "80" "10.240.0.4" "2579" []
      (sampleEndpoint ["ACL"]) (sampleEndpoint ["ACL"]) _ _ (by decide) rfl rfl⟩

/-- Claim C10: the removal `append(Policies[:index], Policies[index+1:]...)` of
`deleteEndpointPolicy` is within bounds exactly when the endpoint has a policy.
With at least one policy, whatever the listen IP, the call returns and the
rewritten sequence has one entry fewer than the original; with no policy
`Policies[1:]` is out of range and the call panics instead of returning. -/
theorem deleteEndpointPolicy_in_bounds_iff_nonempty (X : Externals) (endpoint : HNSEndpoint)
    (metadataIP : String) (log : List Event) :
    ((removeAt endpoint.Policies
        (deleteEndpointPolicyLoop X metadataIP endpoint.Policies 0 ProxyPolicy.zero)).isSome ↔
      endpoint.Policies ≠ []) ∧
    (endpoint.Policies ≠ [] →
      ∃ endpoint1 er log1,
        deleteEndpointPolicy X endpoint metadataIP log =
          (Outcome.returned (endpoint1, er), log1) ∧
        endpoint1.Policies.length + 1 = endpoint.Policies.length) ∧
    (endpoint.Policies = [] →
      sliceFrom endpoint.Policies 1 = none ∧
      ∃ msg, deleteEndpointPolicy X endpoint metadataIP log = (Outcome.panicked msg, log)) := by
  have hsome : endpoint.Policies ≠ [] →
      removeAt endpoint.Policies
          (deleteEndpointPolicyLoop X metadataIP endpoint.Policies 0 ProxyPolicy.zero) =
        some (endpoint.Policies.take
            (deleteEndpointPolicyLoop X metadataIP endpoint.Policies 0 ProxyPolicy.zero) ++
          endpoint.Policies.drop
            (deleteEndpointPolicyLoop X metadataIP endpoint.Policies 0 ProxyPolicy.zero + 1)) :=
    fun hne => removeAt_of_lt _ _ (deleteEndpointPolicyLoop_lt_length X metadataIP _ hne)
  refine ⟨?_, ?_, ?_⟩
  · constructor
    · intro h hnil
      rw [hnil, removeAt_nil] at h
      simp at h
    · intro hne
      rw [hsome hne]
      rfl
  · intro hne
    have hlt := deleteEndpointPolicyLoop_lt_length X metadataIP _ hne
    rcases deleteEndpointPolicy_returns X endpoint metadataIP log _ (hsome hne) with
      ⟨er, log1, hret⟩
    refine ⟨_, er, log1, hret, ?_⟩
    simp only [List.length_append, List.length_take, List.length_drop]
    omega
  · intro hnil
    refine ⟨by rw [hnil]; rfl, "runtime error: slice bounds out of range", ?_⟩
    unfold deleteEndpointPolicy
    simp only [hnil, removeAt_nil]

/-! ## The calls a log holds -/

theorem policyCalls_append (l1 l2 : List Event) :
    policyCalls (l1 ++ l2) = policyCalls l1 ++ policyCalls l2 := by
  unfold policyCalls
  exact List.filter_append l1 l2

theorem policyCalls_callHcnProxyAgent (X : Externals) (req : HNSRequest) (log : List Event) :
    policyCalls (callHcnProxyAgent X req log).2 = policyCalls log := by
  simp only [callHcnProxyAgent]
  cases (X.InvokeHNSRequest log req).Error with
  | none => simp [policyCalls_append, policyCalls]
  | some e => simp [policyCalls_append, policyCalls]

theorem policyCalls_getEndpointByIP (X : Externals) (ip : String) (log : List Event) :
    policyCalls (getEndpointByIP X ip log).2 = policyCalls log := by
  have hcall := policyCalls_callHcnProxyAgent X
    { Entity := EntityType.EndpointV1, Operation := OperationType.Enumerate, Request := none } log
  simp only [getEndpointByIP]
  rcases hc : callHcnProxyAgent X
    { Entity := EntityType.EndpointV1, Operation := OperationType.Enumerate, Request := none }
    log with ⟨res, log1⟩
  rw [hc] at hcall
  cases res with
  | error e => exact hcall
  | ok response =>
    simp only
    cases X.unmarshalEndpoints response with
    | error err => exact hcall
    | ok endpoints =>
      simp only
      cases findEndpointByIP ip endpoints with
      | none => exact hcall
      | some j => exact hcall

theorem policyCalls_addEndpointPolicy (X : Externals) (endpoint : HNSEndpoint)
    (metadataIP metadataPort nmiIP nmiPort : String) (log : List Event) :
    policyCalls (addEndpointPolicy X endpoint metadataIP metadataPort nmiIP nmiPort log).2.2 =
      policyCalls log := by
  simp only [addEndpointPolicy]
  split
  · rfl
  · cases X.marshalPolicy
      { PolicyType := Proxy, IP := metadataIP, Port := metadataPort,
        Destination := nmiIP ++ ":" ++ nmiPort } with
    | error err => rfl
    | ok jsonStr =>
      simp only
      cases X.marshalEndpoint { endpoint with Policies := endpoint.Policies ++ [jsonStr] } with
      | error e => rfl
      | ok jsonStr1 =>
        simp only
        have hcall := policyCalls_callHcnProxyAgent X
          { Entity := EntityType.EndpointV1, Operation := OperationType.Modify,
            Request := some jsonStr1 } log
        rcases hc : callHcnProxyAgent X
          { Entity := EntityType.EndpointV1, Operation := OperationType.Modify,
            Request := some jsonStr1 } log with ⟨res, log1⟩
        rw [hc] at hcall
        cases res with
        | error er => exact hcall
        | ok b => exact hcall

theorem policyCalls_deleteEndpointPolicy (X : Externals) (endpoint : HNSEndpoint)
    (metadataIP : String) (log : List Event) :
    policyCalls (deleteEndpointPolicy X endpoint metadataIP log).2 = policyCalls log := by
  simp only [deleteEndpointPolicy]
  cases removeAt endpoint.Policies
      (deleteEndpointPolicyLoop X metadataIP endpoint.Policies 0 ProxyPolicy.zero) with
  | none => rfl
  | some policies =>
    simp only
    cases X.marshalEndpoint { endpoint with Policies := policies } with
    | error e => rfl
    | ok jsonStr =>
      simp only
      have hcall := policyCalls_callHcnProxyAgent X
        { Entity := EntityType.EndpointV1, Operation := OperationType.Modify,
          Request := some jsonStr } log
      rcases hc : callHcnProxyAgent X
        { Entity := EntityType.EndpointV1, Operation := OperationType.Modify,
          Request := some jsonStr } log with ⟨res, log1⟩
      rw [hc] at hcall
      cases res with
      | error er => exact hcall
      | ok b => exact hcall

theorem policyCalls_ApplyEndpointRoutePolicy (X : Externals)
    (podIP metadataIP metadataPort nmiIP nmiPort : String) (log : List Event) :
    policyCalls (ApplyEndpointRoutePolicy X podIP metadataIP metadataPort nmiIP nmiPort log).2 =
      policyCalls log ++ [Event.applyCall podIP metadataIP metadataPort nmiIP nmiPort] := by
  have h0 : policyCalls (log ++ [Event.applyCall podIP metadataIP metadataPort nmiIP nmiPort]) =
      policyCalls log ++ [Event.applyCall podIP metadataIP metadataPort nmiIP nmiPort] := by
    rw [policyCalls_append]
    rfl
  simp only [ApplyEndpointRoutePolicy]
  split
  · exact h0
  · have hget := policyCalls_getEndpointByIP X podIP
      (log ++ [Event.applyCall podIP metadataIP metadataPort nmiIP nmiPort])
    rcases hg : getEndpointByIP X podIP
      (log ++ [Event.applyCall podIP metadataIP metadataPort nmiIP nmiPort]) with ⟨res, log1⟩
    rw [hg] at hget
    cases res with
    | error err => exact hget.trans h0
    | ok endpoint =>
      simp only
      have hadd := policyCalls_addEndpointPolicy X endpoint metadataIP metadataPort nmiIP
        nmiPort log1
      rcases ha : addEndpointPolicy X endpoint metadataIP metadataPort nmiIP nmiPort log1 with
        ⟨ep1, er, log2⟩
      rw [ha] at hadd
      cases er with
      | none => exact (hadd.trans hget).trans h0
      | some e => exact (hadd.trans hget).trans h0

theorem policyCalls_DeleteEndpointRoutePolicy (X : Externals) (podIP metadataIP : String)
    (log : List Event) :
    policyCalls (DeleteEndpointRoutePolicy X podIP metadataIP log).2 =
      policyCalls log ++ [Event.deleteCall podIP metadataIP] := by
  have h0 : policyCalls (log ++ [Event.deleteCall podIP metadataIP]) =
      policyCalls log ++ [Event.deleteCall podIP metadataIP] := by
    rw [policyCalls_append]
    rfl
  simp only [DeleteEndpointRoutePolicy]
  split
  · exact h0
  · have hget := policyCalls_getEndpointByIP X podIP
      (log ++ [Event.deleteCall podIP metadataIP])
    rcases hg : getEndpointByIP X podIP (log ++ [Event.deleteCall podIP metadataIP]) with
      ⟨res, log1⟩
    rw [hg] at hget
    cases res with
    | error err => exact hget.trans h0
    | ok endpoint =>
      simp only
      have hdel := policyCalls_deleteEndpointPolicy X endpoint metadataIP log1
      rcases hd : deleteEndpointPolicy X endpoint metadataIP log1 with ⟨out, log2⟩
      rw [hd] at hdel
      cases out with
      | panicked msg => exact (hdel.trans hget).trans h0
      | returned r =>
        rcases r with ⟨ep1, er⟩
        cases er with
        | none => exact (hdel.trans hget).trans h0
        | some e => exact (hdel.trans hget).trans h0

theorem policyCalls_uploadIPRoutePolicyMetrics (err : Option Error) (server : Server)
    (podIP : String) (log : List Event) :
    policyCalls (uploadIPRoutePolicyMetrics err server podIP log) = policyCalls log := by
  simp only [uploadIPRoutePolicyMetrics]
  cases err with
  | none => simp [policyCalls_append, policyCalls]
  | some e => simp [policyCalls_append, policyCalls]

theorem syncStep_calls_untracked (X : Externals) (server : Server) (pod : Pod) (st : State)
    (hact : pod.PodIP ≠ "" ∧ server.NodeName = pod.NodeName ∧ server.HostIP ≠ pod.PodIP)
    (huntracked : st.podMap pod.UID = none) :
    policyCalls (syncStep X server (Selected.podObj pod) st).log =
      policyCalls st.log ++
        [Event.applyCall pod.PodIP server.MetadataIP server.MetadataPort server.HostIP
          server.NMIPort] := by
  have hcalls := policyCalls_ApplyEndpointRoutePolicy X pod.PodIP server.MetadataIP
    server.MetadataPort server.HostIP server.NMIPort st.log
  simp only [syncStep, syncPodObj, hact, huntracked, if_true, and_self, ne_eq, not_false_eq_true]
  rcases happly : ApplyEndpointRoutePolicy X pod.PodIP server.MetadataIP server.MetadataPort
    server.HostIP server.NMIPort st.log with ⟨err, log1⟩
  rw [happly] at hcalls
  cases err with
  | some e => simpa only [policyCalls_uploadIPRoutePolicyMetrics] using hcalls
  | none => simpa only [policyCalls_uploadIPRoutePolicyMetrics] using hcalls

theorem syncStep_calls_tracked (X : Externals) (server : Server) (pod : Pod) (st : State)
    (podIP : String)
    (hact : pod.PodIP ≠ "" ∧ server.NodeName = pod.NodeName ∧ server.HostIP ≠ pod.PodIP)
    (htracked : st.podMap pod.UID = some podIP) :
    policyCalls (syncStep X server (Selected.podObj pod) st).log =
      policyCalls st.log ++ [Event.deleteCall podIP server.MetadataIP] := by
  have hcalls := policyCalls_DeleteEndpointRoutePolicy X podIP server.MetadataIP st.log
  simp only [syncStep, syncPodObj, hact, htracked, if_true, and_self, ne_eq, not_false_eq_true]
  rcases hdel : DeleteEndpointRoutePolicy X podIP server.MetadataIP st.log with ⟨out, log1⟩
  rw [hdel] at hcalls
  cases out with
  | panicked msg => exact hcalls
  | returned err =>
    cases err with
    | some e => simpa only [policyCalls_uploadIPRoutePolicyMetrics] using hcalls
    | none => simpa only [policyCalls_uploadIPRoutePolicyMetrics] using hcalls

theorem deleteExistingLoop_calls (X : Externals) (server : Server) (pods : List Pod)
    (st : State) :
    ∃ k, k ≤ (pods.filter fun p => decide (p.NodeName = server.NodeName)).length ∧
      policyCalls (deleteExistingLoop X server pods st).log =
        policyCalls st.log ++
          (((pods.filter fun p => decide (p.NodeName = server.NodeName)).take k).map
            fun p => Event.deleteCall p.PodIP server.MetadataIP) ∧
      ((deleteExistingLoop X server pods st).control = st.control ∧
          k = (pods.filter fun p => decide (p.NodeName = server.NodeName)).length ∨
        ∃ msg, (deleteExistingLoop X server pods st).control = Control.panicked msg) := by
  induction pods generalizing st with
  | nil => exact ⟨0, by simp, by simp [deleteExistingLoop], Or.inl ⟨rfl, by simp⟩⟩
  | cons podItem rest ih =>
    by_cases hnode : podItem.NodeName = server.NodeName
    · have hcalls := policyCalls_DeleteEndpointRoutePolicy X podItem.PodIP server.MetadataIP
        st.log
      have hfilter : (List.filter (fun p => decide (p.NodeName = server.NodeName))
          (podItem :: rest)) =
          podItem :: List.filter (fun p => decide (p.NodeName = server.NodeName)) rest := by
        simp [List.filter_cons, hnode]
      rw [hfilter]
      simp only [deleteExistingLoop, hnode, if_true]
      rcases hdel : DeleteEndpointRoutePolicy X podItem.PodIP server.MetadataIP st.log with
        ⟨out, log1⟩
      rw [hdel] at hcalls
      cases out with
      | panicked msg =>
        refine ⟨1, by simp, ?_, Or.inr ⟨msg, rfl⟩⟩
        simpa using hcalls
      | returned err =>
        cases err with
        | some e =>
          rcases ih { st with log := uploadIPRoutePolicyMetrics (some e) server podItem.PodIP log1 }
            with ⟨k, hk, hlog, hctl⟩
          refine ⟨k + 1, by simpa using hk, ?_, ?_⟩
          · simp only at hlog ⊢
            rw [hlog, policyCalls_uploadIPRoutePolicyMetrics]
            simp only at hcalls
            rw [hcalls]
            simp
          · rcases hctl with ⟨h1, h2⟩ | h
            · exact Or.inl ⟨h1, by simp [h2]⟩
            · exact Or.inr h
        | none =>
          rcases ih { st with podMap := st.podMap.delete podItem.UID,
                              log := uploadIPRoutePolicyMetrics none server podItem.PodIP log1 }
            with ⟨k, hk, hlog, hctl⟩
          refine ⟨k + 1, by simpa using hk, ?_, ?_⟩
          · simp only at hlog ⊢
            rw [hlog, policyCalls_uploadIPRoutePolicyMetrics]
            simp only at hcalls
            rw [hcalls]
            simp
          · rcases hctl with ⟨h1, h2⟩ | h
            · exact Or.inl ⟨h1, by simp [h2]⟩
            · exact Or.inr h
    · have hfilter : (List.filter (fun p => decide (p.NodeName = server.NodeName))
          (podItem :: rest)) =
          List.filter (fun p => decide (p.NodeName = server.NodeName)) rest := by
        simp [List.filter_cons, hnode]
      rw [hfilter]
      simp only [deleteExistingLoop, hnode, if_false]
      exact ih st

theorem policyCalls_closeSubRoutineDone (st : State) :
    policyCalls (closeSubRoutineDone st).log = policyCalls st.log := by
  unfold closeSubRoutineDone
  cases st.control with
  | running => simp [policyCalls_append, policyCalls]
  | panicked msg => rfl
  | exited code => rfl

/-! ## The claims about one pod event -/

/-- Claim C5: a pod event whose pod is not scheduled on this node, or has an
empty pod IP, or has the host's own IP, leaves the whole state as it was:
`podMap` is unchanged and the log gains no event, so neither
`ApplyEndpointRoutePolicy` nor `DeleteEndpointRoutePolicy` nor any other
remote call is made. -/
theorem syncStep_ignores_pod_event (X : Externals) (server : Server) (pod : Pod) (st : State)
    (hskip : pod.NodeName ≠ server.NodeName ∨ pod.PodIP = "" ∨ pod.PodIP = server.HostIP) :
    syncStep X server (Selected.podObj pod) st = st := by
  have hcond : ¬ (pod.PodIP ≠ "" ∧ server.NodeName = pod.NodeName ∧ server.HostIP ≠ pod.PodIP) := by
    rintro ⟨h1, h2, h3⟩
    rcases hskip with h | h | h
    · exact h h2.symm
    · exact h1 h
    · exact h3 h.symm
  simp only [syncStep, syncPodObj, hcond, if_false]

/-- A run of C5 on the sample host: the event of a tracked pod whose IP has
been cleared changes nothing. -/
theorem syncStep_ignores_pod_event_witness :
    (({ samplePod with PodIP := "" } : Pod).NodeName ≠ sampleServer.NodeName ∨
        ({ samplePod with PodIP := "" } : Pod).PodIP = "" ∨
        ({ samplePod with PodIP := "" } : Pod).PodIP = sampleServer.HostIP) ∧
      syncStep (sampleExternals [sampleEndpoint ["ACL"]] none none ([], none)) sampleServer
        (Selected.podObj { samplePod with PodIP := "" }) trackedState = trackedState :=
  ⟨Or.inr (Or.inl rfl),
    syncStep_ignores_pod_event (sampleExternals [sampleEndpoint ["ACL"]] none none ([], none))
      sampleServer { samplePod with PodIP := "" } trackedState (Or.inr (Or.inl rfl))⟩

/-- Claim C6: an actionable pod event (pod on this node, non-empty IP other
than the host IP) whose pod UID is not in `podMap` issues exactly one call,
`ApplyEndpointRoutePolicy` with the event's pod IP, the configured metadata IP
and port, the host IP and the configured proxy port, and no delete call; when
that call returns `nil` the new `podMap` maps the pod UID to the event's pod
IP and agrees with the old one on every other key. -/
theorem syncStep_untracked_pod_applies (X : Externals) (server : Server) (pod : Pod) (st : State)
    (hact : pod.PodIP ≠ "" ∧ server.NodeName = pod.NodeName ∧ server.HostIP ≠ pod.PodIP)
    (huntracked : st.podMap pod.UID = none) :
    policyCalls (syncStep X server (Selected.podObj pod) st).log =
        policyCalls st.log ++
          [Event.applyCall pod.PodIP server.MetadataIP server.MetadataPort server.HostIP
            server.NMIPort] ∧
      ((ApplyEndpointRoutePolicy X pod.PodIP server.MetadataIP server.MetadataPort server.HostIP
          server.NMIPort st.log).1 = none →
        (syncStep X server (Selected.podObj pod) st).podMap pod.UID = some pod.PodIP ∧
        ∀ uid, uid ≠ pod.UID →
          (syncStep X server (Selected.podObj pod) st).podMap uid = st.podMap uid) := by
  have hcalls := policyCalls_ApplyEndpointRoutePolicy X pod.PodIP server.MetadataIP
    server.MetadataPort server.HostIP server.NMIPort st.log
  simp only [syncStep, syncPodObj, hact, huntracked, if_true, and_self, ne_eq, not_false_eq_true]
  rcases happly : ApplyEndpointRoutePolicy X pod.PodIP server.MetadataIP server.MetadataPort
    server.HostIP server.NMIPort st.log with ⟨err, log1⟩
  rw [happly] at hcalls
  cases err with
  | some e =>
    simp only [policyCalls_uploadIPRoutePolicyMetrics]
    exact ⟨hcalls, fun h => by cases h⟩
  | none =>
    simp only [policyCalls_uploadIPRoutePolicyMetrics]
    refine ⟨hcalls, fun _ => ⟨?_, ?_⟩⟩
    · simp [PodMap.insert]
    · intro uid huid
      simp [PodMap.insert, huid]

/-- A run of C6 on the sample host: the event of the untracked sample pod. -/
theorem syncStep_untracked_pod_applies_witness :
    (samplePod.PodIP ≠ "" ∧ sampleServer.NodeName = samplePod.NodeName ∧
        sampleServer.HostIP ≠ samplePod.PodIP) ∧
      emptyState.podMap samplePod.UID = none ∧
      policyCalls (syncStep (sampleExternals [sampleEndpoint []] none none ([], none))
          sampleServer (Selected.podObj samplePod) emptyState).log =
        policyCalls emptyState.log ++
          [Event.applyCall "10.0.0.5" "169.254.169.254" "80" "10.240.0.4" "2579"] ∧
      (syncStep (sampleExternals [sampleEndpoint []] none none ([], none))
          sampleServer (Selected.podObj samplePod) emptyState).podMap "A" = some "10.0.0.5" :=
  have hact : samplePod.PodIP ≠ "" ∧ sampleServer.NodeName = samplePod.NodeName ∧
      sampleServer.HostIP ≠ samplePod.PodIP := by decide
  have h := syncStep_untracked_pod_applies
    (sampleExternals [sampleEndpoint []] none none ([], none)) sampleServer samplePod emptyState
    hact rfl
  ⟨hact, rfl, h.1, (h.2 rfl).1⟩

/-- Claim C7: when the `ApplyEndpointRoutePolicy` or `DeleteEndpointRoutePolicy`
call made for an actionable pod event returns an error, `podMap` after the
step is `podMap` before it, and the same event, handled in any later state
that holds the same record (or none) for the pod, issues the same call
again. -/
theorem syncStep_failed_call_keeps_podMap (X : Externals) (server : Server) (pod : Pod)
    (st : State)
    (hact : pod.PodIP ≠ "" ∧ server.NodeName = pod.NodeName ∧ server.HostIP ≠ pod.PodIP)
    (hfail :
      (∃ podIP e, st.podMap pod.UID = some podIP ∧
        (DeleteEndpointRoutePolicy X podIP server.MetadataIP st.log).1 =
          Outcome.returned (some e)) ∨
      (∃ e, st.podMap pod.UID = none ∧
        (ApplyEndpointRoutePolicy X pod.PodIP server.MetadataIP server.MetadataPort
          server.HostIP server.NMIPort st.log).1 = some e)) :
    (syncStep X server (Selected.podObj pod) st).podMap = st.podMap ∧
      ∃ call,
        policyCalls (syncStep X server (Selected.podObj pod) st).log =
          policyCalls st.log ++ [call] ∧
        ∀ st2 : State, st2.podMap pod.UID = st.podMap pod.UID →
          policyCalls (syncStep X server (Selected.podObj pod) st2).log =
            policyCalls st2.log ++ [call] := by
  rcases hfail with ⟨podIP, e, htracked, hdel⟩ | ⟨e, huntracked, happly⟩
  · refine ⟨?_, Event.deleteCall podIP server.MetadataIP,
      syncStep_calls_tracked X server pod st podIP hact htracked,
      fun st2 h2 => syncStep_calls_tracked X server pod st2 podIP hact (h2.trans htracked)⟩
    simp only [syncStep, syncPodObj, hact, htracked, if_true, and_self, ne_eq,
      not_false_eq_true]
    rcases hd : DeleteEndpointRoutePolicy X podIP server.MetadataIP st.log with ⟨out, log1⟩
    rw [hd] at hdel
    simp only at hdel
    subst hdel
    rfl
  · refine ⟨?_, Event.applyCall pod.PodIP server.MetadataIP server.MetadataPort server.HostIP
        server.NMIPort,
      syncStep_calls_untracked X server pod st hact huntracked,
      fun st2 h2 => syncStep_calls_untracked X server pod st2 hact (h2.trans huntracked)⟩
    simp only [syncStep, syncPodObj, hact, huntracked, if_true, and_self, ne_eq,
      not_false_eq_true]
    rcases ha : ApplyEndpointRoutePolicy X pod.PodIP server.MetadataIP server.MetadataPort
      server.HostIP server.NMIPort st.log with ⟨err, log1⟩
    rw [ha] at happly
    simp only at happly
    subst happly
    rfl

/-- A run of C7 on the sample host, whose agent fails Enumerate: the apply call
for the untracked sample pod returns an error and the pod stays untracked. -/
theorem syncStep_failed_call_keeps_podMap_witness :
    (samplePod.PodIP ≠ "" ∧ sampleServer.NodeName = samplePod.NodeName ∧
        sampleServer.HostIP ≠ samplePod.PodIP) ∧
      (ApplyEndpointRoutePolicy
          (sampleExternals [] (some "enumerate failed") none ([], none))
          samplePod.PodIP sampleServer.MetadataIP sampleServer.MetadataPort sampleServer.HostIP
          sampleServer.NMIPort emptyState.log).1 = some "enumerate failed" ∧
      (syncStep (sampleExternals [] (some "enumerate failed") none ([], none)) sampleServer
          (Selected.podObj samplePod) emptyState).podMap = emptyState.podMap :=
  have hact : samplePod.PodIP ≠ "" ∧ sampleServer.NodeName = samplePod.NodeName ∧
      sampleServer.HostIP ≠ samplePod.PodIP := by decide
  ⟨hact, rfl,
    (syncStep_failed_call_keeps_podMap
      (sampleExternals [] (some "enumerate failed") none ([], none)) sampleServer samplePod
      emptyState hact (Or.inr ⟨"enumerate failed", rfl, rfl⟩)).1⟩

/-- Claim C8 does not hold as stated: on the sample host the sample pod is
tracked with IP `10.0.0.5` and scheduled on this node, and an event for it
that carries an empty pod IP issues no call and leaves the record in place. -/
theorem syncStep_tracked_pod_empty_ip_no_delete :
    trackedState.podMap samplePod.UID = some "10.0.0.5" ∧
      ({ samplePod with PodIP := "" } : Pod).NodeName = sampleServer.NodeName ∧
      policyCalls (syncStep (sampleExternals [sampleEndpoint ["ACL"]] none none ([], none))
          sampleServer (Selected.podObj { samplePod with PodIP := "" }) trackedState).log = [] ∧
      (syncStep (sampleExternals [sampleEndpoint ["ACL"]] none none ([], none))
          sampleServer (Selected.podObj { samplePod with PodIP := "" }) trackedState).podMap
        samplePod.UID = some "10.0.0.5" :=
  ⟨rfl, rfl, rfl, rfl⟩

/-- Claim C8, amended: for a pod tracked in `podMap` and scheduled on this
node, an event for that pod whose pod IP is non-empty and differs from the
host IP, whatever that IP is, issues exactly one call,
`DeleteEndpointRoutePolicy` with the IP recorded in `podMap` rather than the
event's IP; when that call returns `nil` the pod's record is removed and every
other record is kept. -/
theorem syncStep_tracked_pod_deletes_recorded_ip (X : Externals) (server : Server) (pod : Pod)
    (st : State) (podIP : String)
    (hact : pod.PodIP ≠ "" ∧ server.NodeName = pod.NodeName ∧ server.HostIP ≠ pod.PodIP)
    (htracked : st.podMap pod.UID = some podIP) :
    policyCalls (syncStep X server (Selected.podObj pod) st).log =
        policyCalls st.log ++ [Event.deleteCall podIP server.MetadataIP] ∧
      ((DeleteEndpointRoutePolicy X podIP server.MetadataIP st.log).1 = Outcome.returned none →
        (syncStep X server (Selected.podObj pod) st).podMap pod.UID = none ∧
        ∀ uid, uid ≠ pod.UID →
          (syncStep X server (Selected.podObj pod) st).podMap uid = st.podMap uid) := by
  refine ⟨syncStep_calls_tracked X server pod st podIP hact htracked, ?_⟩
  intro hok
  simp only [syncStep, syncPodObj, hact, htracked, if_true, and_self, ne_eq, not_false_eq_true]
  rcases hd : DeleteEndpointRoutePolicy X podIP server.MetadataIP st.log with ⟨out, log1⟩
  rw [hd] at hok
  simp only at hok
  subst hok
  refine ⟨?_, ?_⟩
  · simp [PodMap.delete]
  · intro uid huid
    simp [PodMap.delete, huid]

/-- A run of the amended C8 on the sample host: the sample pod is tracked with
IP `10.0.0.5`, the event carries IP `10.0.0.9`; the delete call is made with
`10.0.0.5` and the record is removed. -/
theorem syncStep_tracked_pod_deletes_recorded_ip_witness :
    (({ samplePod with PodIP := "10.0.0.9" } : Pod).PodIP ≠ "" ∧
        sampleServer.NodeName = ({ samplePod with PodIP := "10.0.0.9" } : Pod).NodeName ∧
        sampleServer.HostIP ≠ ({ samplePod with PodIP := "10.0.0.9" } : Pod).PodIP) ∧
      trackedState.podMap ({ samplePod with PodIP := "10.0.0.9" } : Pod).UID = some "10.0.0.5" ∧
      policyCalls (syncStep (sampleExternals [sampleEndpoint ["ACL"]] none none ([], none))
          sampleServer (Selected.podObj { samplePod with PodIP := "10.0.0.9" })
          trackedState).log =
        policyCalls trackedState.log ++ [Event.deleteCall "10.0.0.5" "169.254.169.254"] ∧
      (syncStep (sampleExternals [sampleEndpoint ["ACL"]] none none ([], none))
          sampleServer (Selected.podObj { samplePod with PodIP := "10.0.0.9" })
          trackedState).podMap "A" = none :=
  have hact : ({ samplePod with PodIP := "10.0.0.9" } : Pod).PodIP ≠ "" ∧
      sampleServer.NodeName = ({ samplePod with PodIP := "10.0.0.9" } : Pod).NodeName ∧
      sampleServer.HostIP ≠ ({ samplePod with PodIP := "10.0.0.9" } : Pod).PodIP := by decide
  have h := syncStep_tracked_pod_deletes_recorded_ip
    (sampleExternals [sampleEndpoint ["ACL"]] none none ([], none)) sampleServer
    { samplePod with PodIP := "10.0.0.9" } trackedState "10.0.0.5" hact rfl
  ⟨hact, rfl, h.1, (h.2 rfl).1⟩

/-! ## The claim about the drain -/

/-- Claim C9 does not hold as stated: on the sample host the sample pod is
tracked and scheduled on this node, the pod listing fails and yields no pod,
and on either shutdown trigger the drain issues no
`DeleteEndpointRoutePolicy` call at all. -/
theorem syncStep_drain_skips_unlisted_tracked_pod :
    trackedState.podMap samplePod.UID = some "10.0.0.5" ∧
      samplePod.NodeName = sampleServer.NodeName ∧
      policyCalls (syncStep
          (sampleExternals [sampleEndpoint ["ACL"]] none none ([], some "pod listing failed"))
          sampleServer Selected.signal trackedState).log = [] ∧
      policyCalls (syncStep
          (sampleExternals [sampleEndpoint ["ACL"]] none none ([], some "pod listing failed"))
          sampleServer Selected.mainRoutineDone trackedState).log = [] :=
  ⟨rfl, rfl, rfl, rfl⟩

/-- Claim C9, amended: on either shutdown trigger, for every state of `podMap`
and every result of the pod listing, the calls of the step are those of the
drain, which runs before `close(subRoutineDone)`, and the drain issues its
`DeleteEndpointRoutePolicy` calls for the entries of the pod listing that are
scheduled on this node, tracked or not: one call per entry, in the order of
the listing, with the entry's pod IP, up to a call that panics, and for all of
the entries when the drain reaches its exit. -/
theorem syncStep_drain_calls_follow_listing (X : Externals) (server : Server) (st : State) :
    syncStep X server Selected.mainRoutineDone st = syncStep X server Selected.signal st ∧
      syncStep X server Selected.signal st =
        closeSubRoutineDone (DeleteRoutePolicyForExistingPods X server st) ∧
      policyCalls (syncStep X server Selected.signal st).log =
        policyCalls (DeleteRoutePolicyForExistingPods X server st).log ∧
      ∃ k, k ≤ ((X.ListPods st.log).1.filter
            fun p => decide (p.NodeName = server.NodeName)).length ∧
        policyCalls (DeleteRoutePolicyForExistingPods X server st).log =
          policyCalls st.log ++
            ((((X.ListPods st.log).1.filter
                fun p => decide (p.NodeName = server.NodeName)).take k).map
              fun p => Event.deleteCall p.PodIP server.MetadataIP) ∧
        ∀ code, (DeleteRoutePolicyForExistingPods X server st).control = Control.exited code →
          k = ((X.ListPods st.log).1.filter
            fun p => decide (p.NodeName = server.NodeName)).length := by
  refine ⟨rfl, rfl, policyCalls_closeSubRoutineDone _, ?_⟩
  rcases deleteExistingLoop_calls X server (X.ListPods st.log).1
    { st with log := st.log ++ [Event.listPods] } with ⟨k, hk, hlog, hctl⟩
  have hlist : policyCalls (st.log ++ [Event.listPods]) = policyCalls st.log := by
    simp [policyCalls_append, policyCalls]
  simp only [hlist] at hlog
  refine ⟨k, hk, ?_, ?_⟩
  · simp only [DeleteRoutePolicyForExistingPods]
    split
    · simp only [policyCalls_append, hlog]
      simp [policyCalls]
    · exact hlog
  · intro code hexit
    rcases hctl with ⟨_, h2⟩ | ⟨msg, hmsg⟩
    · exact h2
    · simp only [DeleteRoutePolicyForExistingPods, hmsg] at hexit
      cases hexit

/-- A run of the amended C9 on the sample host: the listing holds the sample
pod, tracked, and a second pod of this node that is not tracked; both receive
one call, in the order of the listing, and the drain exits with code 0. -/
theorem drain_run_on_sample_listing :
    policyCalls (syncStep
        (sampleExternals [sampleEndpoint ["ACL"]] none none
          ([samplePod, { samplePod with UID := "B", PodIP := "10.0.0.6" }], none))
        sampleServer Selected.signal trackedState).log =
      [Event.deleteCall "10.0.0.5" "169.254.169.254",
        Event.deleteCall "10.0.0.6" "169.254.169.254"] ∧
    (syncStep
        (sampleExternals [sampleEndpoint ["ACL"]] none none
          ([samplePod, { samplePod with UID := "B", PodIP := "10.0.0.6" }], none))
        sampleServer Selected.signal trackedState).control = Control.exited 0 :=
  ⟨rfl, rfl⟩

end AadPodIdentity
